import Mathlib

/-!
Verification of `otter/test_files/abstract_test.py` (otter-grader).

Numeric points (Python `int`/`float`) are modelled as exact rationals `ℚ`;
Python `None` for an unset point value is `Option.none`.  Python exceptions
raised by `resolve_test_file_points` are modelled with `Except`; the
`TypeError` branches that guard against ill-typed inputs are unreachable in
the typed embedding.  Arithmetic on a possibly-`None` value (a Python
`TypeError` at runtime) and division by zero (`ZeroDivisionError`) inside
`grade` are modelled by `Option.none` results.
-/

namespace Otter

/-- Embedding of the `TestCase` dataclass. -/
structure TestCase where
  name : String
  body : String
  hidden : Bool
  points : Option ℚ
  success_message : Option String
  failure_message : Option String
  deriving Repr, DecidableEq

/-- Embedding of the `TestCaseResult` dataclass. -/
structure TestCaseResult where
  test_case : TestCase
  message : Option String
  passed : Bool
  deriving Repr, DecidableEq

/-- The instance state of a `TestFile` set up by `TestFile.__init__`.
`score_override` is the `_score` attribute. -/
structure TestFile where
  name : String
  path : String
  test_cases : List TestCase
  all_or_nothing : Bool
  test_case_results : List TestCaseResult
  score_override : Option ℚ
  has_hidden : Bool
  deriving Repr, DecidableEq

/-- Embeds `TestFile.__init__(name, path, test_cases, all_or_nothing, has_hidden)`:
`test_case_results` starts empty and `_score` starts as `None`. -/
def TestFile.init (name path : String) (test_cases : List TestCase)
    (all_or_nothing : Bool) (has_hidden : Bool) : TestFile :=
  { name := name, path := path, test_cases := test_cases,
    all_or_nothing := all_or_nothing, test_case_results := [],
    score_override := none, has_hidden := has_hidden }

/-- The `total_points` argument of `resolve_test_file_points`: Python `None`,
a number, or a list (whose entries may themselves be `None`). -/
inductive TotalPoints where
  | none
  | num (q : ℚ)
  | list (l : List (Option ℚ))
  deriving Repr, DecidableEq

/-- The `ValueError`s `resolve_test_file_points` can raise. -/
inductive ResolveError where
  | LengthMismatch
  | OverAllocation
  deriving Repr, DecidableEq

/-- Embeds `dataclasses.replace(tc, points=p)`. -/
def replacePoints (tc : TestCase) (p : Option ℚ) : TestCase :=
  { tc with points := p }

/-- The sum `pre_specified = sum(p for p in point_values if p is not None)`. -/
def preSpecified (point_values : List (Option ℚ)) : ℚ :=
  (point_values.filterMap id).sum

/-- Embeds `sum(1 for p in point_values if p is None)`. -/
def numUnset (point_values : List (Option ℚ)) : ℕ :=
  (point_values.filter Option.isNone).length

/-- The value `per_remaining` when `total_points` is the number `tp`:
`(total_points - pre_specified) / sum(1 for p in point_values if p is None)`,
with the `ZeroDivisionError` handler giving `0.0`. -/
def perRemainingNum (tp : ℚ) (point_values : List (Option ℚ)) : ℚ :=
  if numUnset point_values = 0 then 0
  else (tp - preSpecified point_values) / (numUnset point_values : ℚ)

/-- The value `per_remaining` when `total_points` is `None`: `1 / numUnset` when only
zeros and `None`s are specified, `1 / len(point_values)` when the
pre-specified points sum to zero some being nonzero, else `0.0`; each
`ZeroDivisionError` handler gives `0.0`. -/
def perRemainingNone (point_values : List (Option ℚ)) : ℚ :=
  if preSpecified point_values = 0 ∧
      ∀ p ∈ point_values, p = some 0 ∨ p = Option.none then
    if numUnset point_values = 0 then 0
    else 1 / (numUnset point_values : ℚ)
  else if preSpecified point_values = 0 then
    1 / (point_values.length : ℚ)
  else 0

/-- The final list comprehension of `resolve_test_file_points`: every
test case whose points are `None` receives `per_remaining`. -/
def applyPer (per_remaining : ℚ) (test_cases : List TestCase) : List TestCase :=
  test_cases.map (fun tc => { tc with points := some (tc.points.getD per_remaining) })

/-- Body of `resolve_test_file_points` from the `point_values` computation
onwards, after the list case has rewritten `test_cases` and reset
`total_points` to `None`. -/
def resolveCore (total_points : Option ℚ) (test_cases : List TestCase) :
    Except ResolveError (List TestCase) :=
  match total_points with
  | some tp =>
      if preSpecified (test_cases.map (·.points)) > tp then
        .error .OverAllocation
      else
        .ok (applyPer (perRemainingNum tp (test_cases.map (·.points))) test_cases)
  | Option.none =>
      .ok (applyPer (perRemainingNone (test_cases.map (·.points))) test_cases)

/-- Embeds `TestFile.resolve_test_file_points(total_points, test_cases)`. -/
def resolve_test_file_points (total_points : TotalPoints)
    (test_cases : List TestCase) : Except ResolveError (List TestCase) :=
  match total_points with
  | .list pts =>
      if pts.length ≠ test_cases.length then
        .error .LengthMismatch
      else
        resolveCore Option.none (List.zipWith replacePoints test_cases pts)
  | .num q => resolveCore (some q) test_cases
  | .none => resolveCore Option.none test_cases

/-- Python `sum` over a list of possibly-`None` numbers: a `None` element
makes the whole sum fail (`TypeError`), modelled as `Option.none`. -/
def optSum : List (Option ℚ) → Option ℚ
  | [] => some 0
  | Option.none :: _ => Option.none
  | some q :: ps =>
      match optSum ps with
      | some rest => some (q + rest)
      | Option.none => Option.none

/-- Embeds `TestFile.passed_all`. -/
def TestFile.passed_all (tf : TestFile) : Bool :=
  tf.test_case_results.all (·.passed)

/-- Embeds `TestFile.grade` (the final branch divides the points of passed cases by
the file total; a `None` point value or a zero total makes it fail). -/
def TestFile.grade (tf : TestFile) : Option ℚ :=
  if tf.all_or_nothing && !tf.passed_all then
    some 0
  else if tf.all_or_nothing && tf.passed_all then
    some 1
  else do
    let s ← optSum ((tf.test_case_results.filter (·.passed)).map (·.test_case.points))
    let t ← optSum (tf.test_cases.map (·.points))
    if t = 0 then Option.none else some (s / t)

/-- Embeds `TestFile.score`: the manual override if set, else the sum of the points
of the passed test cases. -/
def TestFile.score (tf : TestFile) : Option ℚ :=
  match tf.score_override with
  | some s => some s
  | Option.none =>
      optSum ((tf.test_case_results.filter (·.passed)).map (·.test_case.points))

/-- Embeds `TestFile.possible`: the sum of the points of all test cases. -/
def TestFile.possible (tf : TestFile) : Option ℚ :=
  optSum (tf.test_cases.map (·.points))

/-- Embeds `TestFile.update_score(new_score)`: overwrites `_score`. -/
def TestFile.update_score (tf : TestFile) (new_score : Option ℚ) : TestFile :=
  { tf with score_override := new_score }

/-- Appending a `TestCaseResult` to `test_case_results`
(`self.test_case_results.append(tcr)`, performed by `run`). -/
def TestFile.append_result (tf : TestFile) (tcr : TestCaseResult) : TestFile :=
  { tf with test_case_results := tf.test_case_results ++ [tcr] }

/-- A sample test case with unset points, used in concrete witnesses. -/
def tcU : TestCase :=
  { name := "q1 - 1", body := ">>> x == 1", hidden := false,
    points := Option.none, success_message := Option.none,
    failure_message := Option.none }

/-- A sample test case worth `q` points. -/
def tcP (q : ℚ) : TestCase := { tcU with name := "q1 - 2", points := some q }

/-- C2: for a test file with `all_or_nothing` set, `grade` is `1` when every
appended `TestCaseResult` passed and `0` otherwise, whatever the test cases'
point values are. -/
theorem grade_all_or_nothing (tf : TestFile) (h : tf.all_or_nothing = true) :
    tf.grade = some (if ∀ tcr ∈ tf.test_case_results, tcr.passed = true then 1 else 0) := by
  unfold TestFile.grade
  cases hp : tf.passed_all with
  | false =>
      have hns : ¬ ∀ tcr ∈ tf.test_case_results, tcr.passed = true := by
        intro hall
        have h2 := List.all_eq_true.2 hall
        rw [TestFile.passed_all] at hp
        rw [h2] at hp
        exact Bool.noConfusion hp
      rw [if_neg hns]
      simp [h, hp]
  | true =>
      have hall : ∀ tcr ∈ tf.test_case_results, tcr.passed = true :=
        List.all_eq_true.1 hp
      rw [if_pos hall]
      simp [h, hp]

/-- Witness for C2 at a concrete all-or-nothing file. -/
theorem grade_all_or_nothing_witness :
    (TestFile.init "q1" "tests/q1.py" [tcU] true false).all_or_nothing = true ∧
    (TestFile.init "q1" "tests/q1.py" [tcU] true false).grade =
      some (if ∀ tcr ∈ (TestFile.init "q1" "tests/q1.py" [tcU] true false).test_case_results,
        tcr.passed = true then 1 else 0) :=
  ⟨rfl, grade_all_or_nothing _ rfl⟩

/-- C5: a list-valued `total_points` whose length differs from the number of
test cases makes `resolve_test_file_points` fail with the length-mismatch
`ValueError`. -/
theorem resolve_length_mismatch (pts : List (Option ℚ)) (tcs : List TestCase)
    (h : pts.length ≠ tcs.length) :
    resolve_test_file_points (.list pts) tcs = .error .LengthMismatch := by
  unfold resolve_test_file_points
  simp [h]

/-- Witness for C5: one point entry, zero test cases. -/
theorem resolve_length_mismatch_witness :
    [some (1 : ℚ)].length ≠ ([] : List TestCase).length ∧
    resolve_test_file_points (.list [some 1]) [] = .error .LengthMismatch :=
  ⟨by decide, resolve_length_mismatch [some 1] [] (by decide)⟩

/-- C6: with a numeric `total_points`, if the pre-specified per-case points
sum to more than `total_points`, `resolve_test_file_points` fails with the
over-allocation `ValueError`. -/
theorem resolve_over_allocation (tcs : List TestCase) (t : ℚ)
    (h : preSpecified (tcs.map (·.points)) > t) :
    resolve_test_file_points (.num t) tcs = .error .OverAllocation := by
  unfold resolve_test_file_points resolveCore
  simp [h]

/-- Witness for C6: a single case worth 2 points against a total of 1. -/
theorem resolve_over_allocation_witness :
    preSpecified ([tcP 2].map (·.points)) > 1 ∧
    resolve_test_file_points (.num 1) [tcP 2] = .error .OverAllocation :=
  ⟨by norm_num [preSpecified, tcP, tcU, List.filterMap],
   resolve_over_allocation [tcP 2] 1
     (by norm_num [preSpecified, tcP, tcU, List.filterMap])⟩

/-- C8: after `update_score(x)` with a numeric `x`, `score` reads back
exactly `x`, whatever the test case results are, until the override is
cleared. -/
theorem score_after_update (tf : TestFile) (x : ℚ) :
    (tf.update_score (some x)).score = some x := rfl

/-- C9: `update_score` never changes `possible`. -/
theorem possible_after_update (tf : TestFile) (s : Option ℚ) :
    (tf.update_score s).possible = tf.possible := rfl

/-- C10: a freshly constructed test file has `passed_all` vacuously true,
and an all-or-nothing fresh file reads `grade = 1` before any test ran. -/
theorem new_file_passed_all_grade (name path : String) (tcs : List TestCase)
    (aon hh : Bool) :
    (TestFile.init name path tcs aon hh).passed_all = true ∧
    (TestFile.init name path tcs true hh).grade = some 1 :=
  ⟨rfl, rfl⟩

theorem optSum_map_some {α : Type} (l : List α) (f : α → ℚ) :
    optSum (l.map (fun a => some (f a))) = some ((l.map f).sum) := by
  induction l with
  | nil => rfl
  | cons a l ih => simp [optSum, ih]

theorem preSpecified_cons_none (ps : List (Option ℚ)) :
    preSpecified (Option.none :: ps) = preSpecified ps := rfl

theorem preSpecified_cons_some (q : ℚ) (ps : List (Option ℚ)) :
    preSpecified (some q :: ps) = q + preSpecified ps := rfl

theorem numUnset_cons_none (ps : List (Option ℚ)) :
    numUnset (Option.none :: ps) = numUnset ps + 1 := by
  unfold numUnset
  rw [List.filter_cons]
  simp

theorem numUnset_cons_some (q : ℚ) (ps : List (Option ℚ)) :
    numUnset (some q :: ps) = numUnset ps := by
  unfold numUnset
  rw [List.filter_cons]
  simp

theorem sum_getD (pts : List (Option ℚ)) (per : ℚ) :
    (pts.map (fun p => p.getD per)).sum
      = preSpecified pts + (numUnset pts : ℚ) * per := by
  induction pts with
  | nil => simp [preSpecified, numUnset]
  | cons p ps ih =>
      cases p with
      | none =>
          rw [List.map_cons, List.sum_cons, ih, preSpecified_cons_none,
            numUnset_cons_none, Option.getD_none]
          push_cast
          ring
      | some q =>
          rw [List.map_cons, List.sum_cons, ih, preSpecified_cons_some,
            numUnset_cons_some, Option.getD_some]
          ring

/-- The sum of the points after the final distribution step. -/
theorem optSum_applyPer (per : ℚ) (tcs : List TestCase) :
    optSum ((applyPer per tcs).map (·.points))
      = some (preSpecified (tcs.map (·.points))
          + (numUnset (tcs.map (·.points)) : ℚ) * per) := by
  unfold applyPer
  rw [List.map_map]
  have he : ((fun tc : TestCase => tc.points) ∘
      (fun tc => { tc with points := some (tc.points.getD per) }))
      = fun tc : TestCase => some (tc.points.getD per) := rfl
  rw [he, optSum_map_some]
  congr 1
  have h2 : (fun tc : TestCase => tc.points.getD per)
      = (fun p : Option ℚ => p.getD per) ∘ (fun tc : TestCase => tc.points) := rfl
  rw [h2, ← List.map_map, sum_getD]

theorem numUnset_ne_zero (pts : List (Option ℚ)) (h : Option.none ∈ pts) :
    numUnset pts ≠ 0 := by
  unfold numUnset
  intro hlen
  rw [List.length_eq_zero] at hlen
  have : (Option.none : Option ℚ) ∈ pts.filter Option.isNone :=
    List.mem_filter.2 ⟨h, rfl⟩
  rw [hlen] at this
  exact List.not_mem_nil _ this

/-- Distribution is the identity on test cases whose points are all set. -/
theorem applyPer_zipWith_some (per : ℚ) :
    ∀ (tcs : List TestCase) (pts : List ℚ),
    applyPer per (List.zipWith (fun tc p => { tc with points := some p }) tcs pts)
      = List.zipWith (fun tc p => { tc with points := some p }) tcs pts
  | [], _ => rfl
  | _ :: _, [] => rfl
  | tc :: tcs, p :: pts => by
      simp only [List.zipWith_cons_cons, applyPer, List.map_cons,
        Option.getD_some, List.map]
      exact congrArg _ (applyPer_zipWith_some per tcs pts)

theorem optSum_append_single (l : List (Option ℚ)) (p : ℚ) :
    ∀ s : ℚ, optSum l = some s → optSum (l ++ [some p]) = some (s + p) := by
  induction l with
  | nil =>
      intro s h
      simp only [optSum, Option.some.injEq] at h
      subst h
      simp [optSum]
  | cons q qs ih =>
      intro s h
      cases q with
      | none => simp [optSum] at h
      | some a =>
          rw [List.cons_append]
          cases hqs : optSum qs with
          | none => rw [optSum, hqs] at h; exact Option.noConfusion h
          | some b =>
              rw [optSum, hqs, Option.some.injEq] at h
              rw [optSum, ih b hqs, Option.some.injEq, ← h]
              ring

/-- C1 counterexample: with one test case worth `1` point and numeric
`total_points = 2`, no `OverAllocation` is raised, yet the returned points
sum to `1`, not `2`. -/
theorem resolve_num_sum_counterexample :
    resolve_test_file_points (.num 2) [tcP 1] = .ok [tcP 1] ∧
    optSum ([tcP 1].map (·.points)) = some 1 ∧ (1 : ℚ) ≠ 2 := by
  refine ⟨?_, ?_, by norm_num⟩
  · norm_num [resolve_test_file_points, resolveCore, preSpecified,
      List.filterMap, applyPer, perRemainingNum, numUnset, List.filter,
      tcP, tcU]
  · norm_num [optSum, tcP, tcU]

/-- C1 (amended): with a numeric `total_points`, whenever at least one test
case has unset (`None`) points and `resolve_test_file_points` does not raise
`OverAllocation`, the returned points sum to exactly `total_points`. -/
theorem resolve_num_sum (tcs : List TestCase) (t : ℚ) (l : List TestCase)
    (hu : Option.none ∈ tcs.map (·.points))
    (hok : resolve_test_file_points (.num t) tcs = .ok l) :
    optSum (l.map (·.points)) = some t := by
  have hk := numUnset_ne_zero _ hu
  have hkq : ((numUnset (tcs.map (·.points)) : ℚ)) ≠ 0 := by
    exact_mod_cast hk
  simp only [resolve_test_file_points, resolveCore] at hok
  by_cases hover : preSpecified (tcs.map (·.points)) > t
  · rw [if_pos hover] at hok
    exact Except.noConfusion hok
  · rw [if_neg hover] at hok
    injection hok with hl
    subst hl
    rw [optSum_applyPer, perRemainingNum, if_neg hk]
    congr 1
    rw [mul_comm, div_mul_cancel₀ _ hkq]
    ring

/-- Witness for C1 (amended): one unset case and one case worth `1` against
a total of `3`: the unset case receives `2` and the points sum to `3`. -/
theorem resolve_num_sum_witness :
    Option.none ∈ ([tcU, tcP 1].map (·.points)) ∧
    resolve_test_file_points (.num 3) [tcU, tcP 1]
      = .ok [replacePoints tcU (some 2), tcP 1] ∧
    optSum ([replacePoints tcU (some 2), tcP 1].map (·.points)) = some 3 := by
  have h1 : Option.none ∈ ([tcU, tcP 1].map (·.points)) := by
    simp [tcU, tcP]
  have h2 : resolve_test_file_points (.num 3) [tcU, tcP 1]
      = .ok [replacePoints tcU (some 2), tcP 1] := by
    norm_num [resolve_test_file_points, resolveCore, preSpecified,
      List.filterMap, applyPer, perRemainingNum, numUnset, List.filter,
      replacePoints, tcP, tcU]
  exact ⟨h1, h2, resolve_num_sum _ 3 _ h1 h2⟩

/-- C3: when `total_points` is unset and every test case of a non-empty
list has unset points, resolution succeeds and the returned points sum to
exactly `1`. -/
theorem resolve_all_unset_sum (tcs : List TestCase)
    (hne : tcs ≠ [])
    (hall : ∀ tc ∈ tcs, tc.points = Option.none) :
    ∃ l, resolve_test_file_points .none tcs = .ok l ∧
      optSum (l.map (·.points)) = some 1 := by
  refine ⟨applyPer (perRemainingNone (tcs.map (·.points))) tcs, ?_, ?_⟩
  · simp only [resolve_test_file_points, resolveCore]
  have hpts : ∀ p ∈ tcs.map (·.points), p = Option.none := by
    intro p hp
    rcases List.mem_map.1 hp with ⟨tc, htc, rfl⟩
    exact hall tc htc
  have hpre : preSpecified (tcs.map (·.points)) = 0 := by
    unfold preSpecified
    rw [List.filterMap_eq_nil.2 (fun a ha => by rw [hpts a ha]; rfl)]
    rfl
  have hnum : numUnset (tcs.map (·.points)) = tcs.length := by
    unfold numUnset
    rw [List.filter_eq_self.2 (fun a ha => by rw [hpts a ha]; rfl)]
    simp
  have hlen : tcs.length ≠ 0 := fun h => hne (List.length_eq_zero.1 h)
  have hlq : ((tcs.length : ℚ)) ≠ 0 := by exact_mod_cast hlen
  rw [optSum_applyPer, perRemainingNone, hpre, hnum]
  rw [if_pos ⟨rfl, fun p hp => Or.inr (hpts p hp)⟩, if_neg hlen]
  congr 1
  rw [mul_one_div, div_self hlq]
  norm_num

/-- Witness for C3: two test cases with unset points each receive `1/2`. -/
theorem resolve_all_unset_sum_witness :
    [tcU, tcU] ≠ [] ∧ (∀ tc ∈ [tcU, tcU], tc.points = Option.none) ∧
    ∃ l, resolve_test_file_points .none [tcU, tcU] = .ok l ∧
      optSum (l.map (·.points)) = some 1 := by
  have h1 : [tcU, tcU] ≠ ([] : List TestCase) := by decide
  have h2 : ∀ tc ∈ [tcU, tcU], tc.points = Option.none := by decide
  exact ⟨h1, h2, resolve_all_unset_sum _ h1 h2⟩

/-- C4 counterexample: with the one-entry list `total_points = [None]`, the
single returned test case has points `1` (further distribution applied),
not the corresponding entry `None`. -/
theorem resolve_list_points_counterexample :
    resolve_test_file_points (.list [Option.none]) [tcU]
      = .ok [replacePoints tcU (some 1)] ∧
    (replacePoints tcU (some 1)).points ≠ (Option.none : Option ℚ) := by
  constructor
  · norm_num [resolve_test_file_points, resolveCore, preSpecified,
      List.filterMap, applyPer, perRemainingNone, numUnset, List.filter,
      replacePoints, List.zipWith, tcU]
  · simp [replacePoints]

/-- C4 (amended): when every entry of a list-valued `total_points` of
matching length is a number, each test case's points are overwritten
positionally with the corresponding entry and no further distribution is
applied. -/
theorem resolve_list_points (tcs : List TestCase) (pts : List ℚ)
    (hlen : pts.length = tcs.length) :
    resolve_test_file_points (.list (pts.map some)) tcs
      = .ok (List.zipWith (fun tc p => { tc with points := some p }) tcs pts) := by
  simp only [resolve_test_file_points, resolveCore]
  rw [if_neg (by simp [hlen])]
  have hz : List.zipWith replacePoints tcs (pts.map some)
      = List.zipWith (fun tc p => { tc with points := some p }) tcs pts := by
    rw [List.zipWith_map_right]
    rfl
  rw [hz]
  exact congrArg _ (applyPer_zipWith_some _ tcs pts)

/-- Witness for C4 (amended): points `[2, 3]` for two test cases. -/
theorem resolve_list_points_witness :
    ([(2 : ℚ), 3]).length = [tcU, tcP 1].length ∧
    resolve_test_file_points (.list ([(2 : ℚ), 3].map some)) [tcU, tcP 1]
      = .ok (List.zipWith (fun tc p => { tc with points := some p })
          [tcU, tcP 1] [(2 : ℚ), 3]) :=
  ⟨by decide, resolve_list_points [tcU, tcP 1] [2, 3] (by decide)⟩

/-- C7 counterexample: a non-all-or-nothing file with a test case worth
`-1` points: appending its passing result drops `score` from `0` to `-1`. -/
theorem score_monotone_counterexample :
    (TestFile.init "q1" "tests/q1.py" [tcP (-1)] false false).all_or_nothing
        = false ∧
    ({ test_case := tcP (-1), message := Option.none,
       passed := true } : TestCaseResult).passed = true ∧
    (TestFile.init "q1" "tests/q1.py" [tcP (-1)] false false).score = some 0 ∧
    ((TestFile.init "q1" "tests/q1.py" [tcP (-1)] false false).append_result
      { test_case := tcP (-1), message := Option.none, passed := true }).score
        = some (-1) ∧
    ¬ ((0 : ℚ) ≤ -1) := by
  refine ⟨rfl, rfl, rfl, ?_, by norm_num⟩
  norm_num [TestFile.score, TestFile.append_result, TestFile.init, optSum,
    List.filter, tcP, tcU]

/-- C7 (amended): for a non-all-or-nothing file, appending a passing
`TestCaseResult` whose test case is worth a non-negative number of points
never decreases `score` (whenever `score` is defined before and after). -/
theorem score_monotone (tf : TestFile) (tcr : TestCaseResult) (p s0 s1 : ℚ)
    (haon : tf.all_or_nothing = false)
    (hpass : tcr.passed = true)
    (hp : tcr.test_case.points = some p) (hpos : 0 ≤ p)
    (h0 : tf.score = some s0)
    (h1 : (tf.append_result tcr).score = some s1) :
    s0 ≤ s1 := by
  simp only [TestFile.score, TestFile.append_result] at h0 h1
  cases hov : tf.score_override with
  | some s =>
      simp only [hov, Option.some.injEq] at h0 h1
      rw [← h0, ← h1]
  | none =>
      simp only [hov] at h0 h1
      rw [List.filter_append, List.map_append] at h1
      have hsingle : (List.filter (fun x => x.passed) [tcr]).map
          (fun x => x.test_case.points) = [some p] := by
        rw [List.filter_cons]
        simp [hpass, hp]
      rw [hsingle, optSum_append_single _ p s0 h0, Option.some.injEq] at h1
      rw [← h1]
      linarith

/-- Witness for C7 (amended): appending a passing one-point result raises
`score` from `0` to `1`. -/
theorem score_monotone_witness :
    (TestFile.init "q1" "tests/q1.py" [tcP 1] false false).all_or_nothing
        = false ∧
    ({ test_case := tcP 1, message := Option.none,
       passed := true } : TestCaseResult).passed = true ∧
    ({ test_case := tcP 1, message := Option.none,
       passed := true } : TestCaseResult).test_case.points = some 1 ∧
    (0 : ℚ) ≤ 1 ∧
    (TestFile.init "q1" "tests/q1.py" [tcP 1] false false).score = some 0 ∧
    ((TestFile.init "q1" "tests/q1.py" [tcP 1] false false).append_result
      { test_case := tcP 1, message := Option.none, passed := true }).score
        = some 1 ∧
    (0 : ℚ) ≤ 1 := by
  have h0 : (TestFile.init "q1" "tests/q1.py" [tcP 1] false false).score
      = some 0 := rfl
  have h1 : ((TestFile.init "q1" "tests/q1.py" [tcP 1] false false).append_result
      { test_case := tcP 1, message := Option.none, passed := true }).score
      = some 1 := by
    norm_num [TestFile.score, TestFile.append_result, TestFile.init, optSum,
      List.filter, tcP, tcU]
  exact ⟨rfl, rfl, rfl, by norm_num, h0, h1,
    score_monotone _ _ 1 0 1 rfl rfl rfl (by norm_num) h0 h1⟩

end Otter
